import Mathlib

/-!
Shallow embedding of the auto-x outreach automation system
(orchestrator `src/main.js`, store adapter `src/GoogleSheetsManager.js`,
scheduler `EngagementScheduler.js`, configuration `src/config/config.js`),
together with theorems settling the behavioural claims about the
kill switch, write verification, deduplication, batch updates,
rate-limit planning and the circuit breaker.

External effects are made explicit: sheet reads appear as input values,
random draws as oracle functions, and network success or failure of
individual calls as boolean-valued inputs.
-/

namespace AutoX

/-- JS `String.prototype.toUpperCase` restricted to the ASCII values the
kill switch and status columns use: uppercase every character. -/
def jsToUpperCase (s : String) : String := ⟨s.data.map Char.toUpper⟩

/-- JS `String.prototype.substring(0, n)` on the character level. -/
def jsSubstringTo (n : Nat) (s : String) : String := ⟨s.data.take n⟩

/-! ## Data model: sheet rows and leads -/

/-- One row of the `Leads` worksheet, with the columns written by
`GoogleSheetsManager.appendLeads` and mutated by the status updates.
`rowNumber` is the sheet row key used by updates. -/
structure Row where
  rowNumber : Nat
  timestamp : String := ""
  username : String := ""
  profileUrl : String := ""
  bio : String := ""
  followerCount : Nat := 0
  keyword : String := ""
  filterStatus : String := ""
  filterReason : String := ""
  verified : String := ""
  dmStatus : String := ""
  dmSentDate : String := ""
  lastError : String := ""
  errorTimestamp : String := ""
deriving Repr, DecidableEq

/-- A scraped candidate as produced by the scraping phase and consumed by
`appendLeads`. -/
structure ScrapedLead where
  username : String := ""
  profileUrl : String := ""
  bio : String := ""
  followersCount : Nat := 0
  keyword : String := ""
  scrapedAt : String := ""
  isVerified : Bool := false
deriving Repr, DecidableEq

/-- A lead as returned by `getLeadsForEngagement` (and fed to the
scheduler): `id` is the sheet row number. -/
structure Lead where
  id : Nat
  username : String := ""
  profileUrl : String := ""
  bio : String := ""
deriving Repr, DecidableEq

/-! ## GoogleSheetsManager -/

/-- `getAllUsernames`: the set of usernames currently on the sheet;
`.filter(Boolean)` drops empty strings.  Set membership is modelled by
`List.contains`. -/
def getAllUsernames (rows : List Row) : List String :=
  (rows.map (fun r => r.username)).filter (fun u => u != "")

/-- The row written by `worksheet.addRow` inside `appendLeads`:
`Filter Status` starts `PENDING`, `DM Status` starts `NOT_SENT`, the bio
is truncated to 500 characters. -/
def leadToRow (rowNumber : Nat) (l : ScrapedLead) : Row :=
  { rowNumber := rowNumber
    timestamp := l.scrapedAt
    username := l.username
    profileUrl := l.profileUrl
    bio := jsSubstringTo 500 l.bio
    followerCount := l.followersCount
    keyword := l.keyword
    filterStatus := "PENDING"
    verified := if l.isVerified then "YES" else "NO"
    filterReason := ""
    dmStatus := "NOT_SENT"
    dmSentDate := ""
    lastError := ""
    errorTimestamp := "" }

/-- The rows created by the insert loop of `appendLeads`, one `addRow`
per lead in order; `base + i` is the sheet row number the `i`-th insert
lands on. -/
def appendRowsGo (base : Nat) : Nat → List ScrapedLead → List Row
  | _, [] => []
  | i, l :: ls => leadToRow (base + i) l :: appendRowsGo base (i + 1) ls

/-- Store effect of the insert loop of `appendLeads`: one `addRow` per
lead, appended in order after the existing rows. -/
def appendLeadsRows (store : List Row) (leads : List ScrapedLead) : List Row :=
  store ++ appendRowsGo (store.length + 2) 0 leads

/-- Errors surfaced by the store adapter. `writeNotVerified` is the
post-write content-verification failure of `appendLeads`. -/
inductive SheetsError
  | writeNotVerified
deriving Repr, DecidableEq

/-- `maxRetries` of the verification loop in `appendLeads`. -/
def sheetsMaxRetries : Nat := 3

/-- The escalating wait before verification attempt `i`:
`7000 * (i + 1)` milliseconds, i.e. 7s, 14s, 21s. -/
def verificationDelay (i : Nat) : Nat := 7000 * (i + 1)

/-- The verification loop of `appendLeads`: the `i`-th entry of `reads`
is the username column visible on the forced fresh re-read of attempt
`i`.  The loop stops successfully at the first attempt on which every
inserted username is visible; it reports failure when no attempt
succeeds. -/
def verifyLoop (leads : List ScrapedLead) : List (List String) → Bool
  | [] => false
  | read :: rest =>
    if leads.all (fun l => read.contains l.username) then true
    else verifyLoop leads rest

/-- `appendLeads`: issue all inserts, then verify visibility with the
re-reads.  The first component is the verification outcome, the second
the store rows after the inserts (the insert commands were already
issued, so they are part of the store whether or not verification
succeeds). -/
def appendLeads (store : List Row) (leads : List ScrapedLead)
    (reads : List (List String)) : Except SheetsError Unit × List Row :=
  if leads.isEmpty then (Except.ok (), store)
  else
    let store' := appendLeadsRows store leads
    if verifyLoop leads reads then (Except.ok (), store')
    else (Except.error SheetsError.writeNotVerified, store')

/-- One entry of the batch passed to `batchUpdateLeadStatuses`. -/
structure StatusUpdate where
  rowNumber : Nat
  status : String
  reason : String
deriving Repr, DecidableEq

/-- The error propagated out of `batchUpdateLeadStatuses` when a
`row.save()` call throws; it carries the row on which the save failed. -/
inductive BatchError
  | saveFailed (rowNumber : Nat)
deriving Repr, DecidableEq

/-- Setting the filter-status columns of a row from one update. -/
def applyUpdate (r : Row) (u : StatusUpdate) : Row :=
  { r with filterStatus := u.status, filterReason := u.reason }

/-- The `rowsToUpdate` list built by `batchUpdateLeadStatuses`: each
update is matched against the sheet by row number; updates whose row is
missing are silently skipped.  Sheet row numbers are unique. -/
def rowsToUpdate (sheet : List Row) (updates : List StatusUpdate) : List Row :=
  updates.filterMap (fun u =>
    (sheet.find? (fun r => r.rowNumber == u.rowNumber)).map (fun r => applyUpdate r u))

/-- Persisting one saved row into the sheet. -/
def saveRow (sheet : List Row) (r : Row) : List Row :=
  sheet.map (fun s => if s.rowNumber == r.rowNumber then r else s)

/-- The one-by-one save loop of `batchUpdateLeadStatuses`: each
`row.save()` either succeeds (`saveFails` is false for that row) and is
persisted, or throws, in which case the surrounding catch rethrows and
the remaining rows are never attempted. -/
def saveRows (saveFails : Nat → Bool) : List Row → List Row → Option BatchError × List Row
  | sheet, [] => (none, sheet)
  | sheet, r :: rest =>
    if saveFails r.rowNumber then (some (BatchError.saveFailed r.rowNumber), sheet)
    else saveRows saveFails (saveRow sheet r) rest

/-- `batchUpdateLeadStatuses`: build `rowsToUpdate`, then save them one
by one.  Returns the propagated error, if any, and the persisted
sheet. -/
def batchUpdateLeadStatuses (sheet : List Row) (updates : List StatusUpdate)
    (saveFails : Nat → Bool) : Option BatchError × List Row :=
  if updates.isEmpty then (none, sheet)
  else saveRows saveFails sheet (rowsToUpdate sheet updates)

/-- `getLeadsForEngagement`: rows whose filter status is `PASS` and DM
status is `NOT_SENT`, mapped to leads keyed by row number. -/
def getLeadsForEngagement (rows : List Row) : List Lead :=
  (rows.filter (fun r =>
      jsToUpperCase r.filterStatus == "PASS" && jsToUpperCase r.dmStatus == "NOT_SENT")).map
    (fun r => { id := r.rowNumber, username := r.username,
                profileUrl := r.profileUrl, bio := r.bio })

/-- `markDMSent`: set `DM Status` to `SENT` and stamp the date on the
row with the given number; when the row id is absent (`undefined`) or no
row matches, the sheet is unchanged. -/
def markDMSent (rows : List Row) (rowId : Option Nat) (sentDate : String) : List Row :=
  match rowId with
  | none => rows
  | some k => rows.map (fun r =>
      if r.rowNumber == k then { r with dmStatus := "SENT", dmSentDate := sentDate } else r)

/-- `logError`: record a truncated error message and timestamp on the
row with the given number; absent ids or unmatched rows leave the sheet
unchanged. -/
def logError (rows : List Row) (rowId : Option Nat) (msg stamp : String) : List Row :=
  match rowId with
  | none => rows
  | some k => rows.map (fun r =>
      if r.rowNumber == k then
        { r with lastError := jsSubstringTo 500 msg, errorTimestamp := stamp } else r)

/-- `getKillSwitchStatus`: a read failure, a missing control sheet or an
empty cell default to `RUN`; otherwise the uppercased cell value is
returned. -/
def getKillSwitchStatus (cell : Option String) (readFails : Bool) : String :=
  if readFails then "RUN"
  else
    match cell with
    | none => "RUN"
    | some v => if v = "" then "RUN" else jsToUpperCase v

/-! ## EngagementScheduler -/

/-- The rate-limit configuration consumed by the scheduler
(`config.rateLimits` in `src/config/config.js`; the defaults here are
exactly the configured values). -/
structure RateLimits where
  dmPerDay : Nat := 30
  likesPerDay : Nat := 100
  retweetsPerDay : Nat := 50
  commentsPerDay : Nat := 20
  actionsPerHour : Nat := 15
deriving Repr, DecidableEq

/-- `config.rateLimits` from `src/config/config.js`. -/
def configRateLimits : RateLimits := {}

/-- The scheduler's `dailyCounters` (after `resetDailyCountersIfNeeded`
has run, so already reset if the date rolled over). -/
structure DailyCounters where
  dm : Nat := 0
  likes : Nat := 0
  retweets : Nat := 0
  comments : Nat := 0
deriving Repr, DecidableEq

/-- The closed set of engagement action kinds. -/
inductive ActivityType
  | dm
  | like
  | retweet
  | comment
deriving Repr, DecidableEq

/-- One planned engagement activity, as built by `createDailyPlan`.
Activities carry `leadId` (the sheet row number of the target lead);
they have no `id` field. -/
structure Activity where
  type : ActivityType
  leadId : Nat
  username : String
  message : Option String := none
  postUrl : Option String := none
  comment : Option String := none
  scheduledTime : Nat
  priority : Nat
deriving Repr, DecidableEq

/-- The random draws `createDailyPlan` makes, indexed by the position of
the lead in the input list: scheduled times (`getRandomTimeToday`), the
`Math.random() < 0.3` retweet draw, the `Math.random() < 0.2` comment
draw, the personalized message and the random comment template. -/
structure PlanOracle where
  dmTime : Nat → Nat
  likeTime : Nat → Nat
  retweetTime : Nat → Nat
  commentTime : Nat → Nat
  retweetChance : Nat → Bool
  commentChance : Nat → Bool
  messageFor : Lead → String
  commentText : Nat → String

/-- `Math.max(0, dmPerDay - dailyCounters.dm)` (truncated subtraction). -/
def remainingDMs (rl : RateLimits) (cnt : DailyCounters) : Nat := rl.dmPerDay - cnt.dm

/-- `Math.max(0, likesPerDay - dailyCounters.likes)`. -/
def remainingLikes (rl : RateLimits) (cnt : DailyCounters) : Nat := rl.likesPerDay - cnt.likes

/-- `Math.max(0, retweetsPerDay - dailyCounters.retweets)`. -/
def remainingRetweets (rl : RateLimits) (cnt : DailyCounters) : Nat :=
  rl.retweetsPerDay - cnt.retweets

/-- `Math.max(0, commentsPerDay - dailyCounters.comments)`. -/
def remainingComments (rl : RateLimits) (cnt : DailyCounters) : Nat :=
  rl.commentsPerDay - cnt.comments

/-- The first loop of `createDailyPlan`: walk the leads in order and
assign a DM (priority 1) to each lead that has a username, breaking out
once `dmCount` reaches `remDMs`, the remaining DM quota computed before
the loop; leads without a username are skipped.  `i` is the lead index,
`c` the running `dmCount`. -/
def dmLoop (remDMs : Nat) (o : PlanOracle) : List Lead → Nat → Nat → List Activity
  | [], _, _ => []
  | l :: ls, i, c =>
    if remDMs ≤ c then []
    else if l.username = "" then dmLoop remDMs o ls (i + 1) c
    else
      { type := ActivityType.dm, leadId := l.id, username := l.username,
        message := some (o.messageFor l), scheduledTime := o.dmTime i, priority := 1 }
        :: dmLoop remDMs o ls (i + 1) (c + 1)

/-- The second loop of `createDailyPlan`: for each lead with a username,
deterministically add a like (priority 3) while the like quota and the
`2 × leads.length` cap allow, and probabilistically add a retweet
(priority 2) and a comment (priority 2) within their quotas.
`remLikes`, `remRetweets` and `remComments` are the remaining quotas
computed before the loop; `lc`, `rc`, `cc` are the running
like/retweet/comment counts. -/
def engagementLoop (remLikes remRetweets remComments : Nat) (o : PlanOracle) (leadsLen : Nat) :
    List Lead → Nat → Nat → Nat → Nat → List Activity
  | [], _, _, _, _ => []
  | l :: ls, i, lc, rc, cc =>
    if l.username = "" then
      engagementLoop remLikes remRetweets remComments o leadsLen ls (i + 1) lc rc cc
    else
      let doLike : Bool := decide (lc < remLikes) && decide (lc < leadsLen * 2)
      let doRetweet : Bool := decide (rc < remRetweets) && o.retweetChance i
      let doComment : Bool := decide (cc < remComments) && o.commentChance i
      (if doLike then
        [{ type := ActivityType.like, leadId := l.id, username := l.username,
           postUrl := some ("https://twitter.com/" ++ l.username),
           scheduledTime := o.likeTime i, priority := 3 }] else [])
      ++ (if doRetweet then
        [{ type := ActivityType.retweet, leadId := l.id, username := l.username,
           postUrl := some ("https://twitter.com/" ++ l.username),
           scheduledTime := o.retweetTime i, priority := 2 }] else [])
      ++ (if doComment then
        [{ type := ActivityType.comment, leadId := l.id, username := l.username,
           postUrl := some ("https://twitter.com/" ++ l.username),
           comment := some (o.commentText i),
           scheduledTime := o.commentTime i, priority := 2 }] else [])
      ++ engagementLoop remLikes remRetweets remComments o leadsLen ls (i + 1)
          (lc + (if doLike then 1 else 0)) (rc + (if doRetweet then 1 else 0))
          (cc + (if doComment then 1 else 0))

/-- The comparator of the final `activities.sort`: priority ascending,
ties broken by scheduled time ascending. -/
def planLE (a b : Activity) : Bool :=
  decide (a.priority < b.priority)
    || (decide (a.priority = b.priority) && decide (a.scheduledTime ≤ b.scheduledTime))

/-- The ordering relation induced by the sort comparator. -/
def planLERel (a b : Activity) : Prop := planLE a b = true

instance : DecidableRel planLERel :=
  fun a b => inferInstanceAs (Decidable (planLE a b = true))

instance : IsTrans Activity planLERel :=
  ⟨fun a b c hab hbc => by
    simp only [planLERel, planLE, Bool.or_eq_true, Bool.and_eq_true,
      decide_eq_true_eq] at hab hbc ⊢
    omega⟩

instance : IsTotal Activity planLERel :=
  ⟨fun a b => by
    simp only [planLERel, planLE, Bool.or_eq_true, Bool.and_eq_true, decide_eq_true_eq]
    omega⟩

/-- `EngagementScheduler.createDailyPlan`: empty input gives an empty
plan; otherwise DM assignments followed by the like/retweet/comment
loop, sorted by the comparator, and truncated only when a
`maxActivities` argument is passed (the orchestrator passes none). -/
def createDailyPlan (rl : RateLimits) (cnt : DailyCounters) (o : PlanOracle)
    (leads : List Lead) (maxActivities : Option Nat := none) : List Activity :=
  if leads.isEmpty then []
  else
    let activities :=
      dmLoop (remainingDMs rl cnt) o leads 0 0 ++
        engagementLoop (remainingLikes rl cnt) (remainingRetweets rl cnt)
          (remainingComments rl cnt) o leads.length leads 0 0 0 0
    let sorted := List.insertionSort planLERel activities
    match maxActivities with
    | none => sorted
    | some m => sorted.take m

/-- `EngagementScheduler.incrementCounter`: bump the daily counter of
the given kind.  (Defined by the scheduler; the orchestrator in
`src/main.js` never calls it.) -/
def incrementCounter (cnt : DailyCounters) : ActivityType → DailyCounters
  | ActivityType.dm => { cnt with dm := cnt.dm + 1 }
  | ActivityType.like => { cnt with likes := cnt.likes + 1 }
  | ActivityType.retweet => { cnt with retweets := cnt.retweets + 1 }
  | ActivityType.comment => { cnt with comments := cnt.comments + 1 }

/-! ## Orchestrator (`src/main.js`) -/

/-- `config.errorHandling.circuitBreakerThreshold`. -/
def circuitBreakerThreshold : Nat := 5

/-- `config.engagement.activitiesPerCycle`. -/
def activitiesPerCycle : Nat := 10

/-- `checkKillSwitch`: report stop unless the control value uppercases
to `RUN`. -/
def checkKillSwitch (status : String) : Bool := jsToUpperCase status != "RUN"

/-- The three phases of one cycle. -/
inductive Phase
  | scraping
  | filtering
  | engagement
deriving Repr, DecidableEq

/-- The kill-switch gating of one cycle (`runPhase` in
`runAutomationLoop`): the control value is read before each phase and a
triggered kill switch breaks out of the cycle loop.  Returns the phases
that ran and whether the kill switch stopped the loop. -/
def runCyclePhases (k₁ k₂ k₃ : String) : List Phase × Bool :=
  if checkKillSwitch k₁ then ([], true)
  else if checkKillSwitch k₂ then ([Phase.scraping], true)
  else if checkKillSwitch k₃ then ([Phase.scraping, Phase.filtering], true)
  else ([Phase.scraping, Phase.filtering, Phase.engagement], false)

/-- What one cycle of `runAutomationLoop` produced: stopped by the kill
switch, completed without exception, or threw (with or without a
permission-related message). -/
inductive CycleOutcome
  | killed
  | success
  | failure (permission : Bool)
deriving Repr, DecidableEq

/-- The error-counter update after one cycle: `none` means the loop
breaks (kill switch, permission error, or the consecutive-error counter
reaching the circuit-breaker threshold); success resets the counter to
zero. -/
def loopStep (errorCount : Nat) : CycleOutcome → Option Nat
  | CycleOutcome.killed => none
  | CycleOutcome.success => some 0
  | CycleOutcome.failure perm =>
    if perm then none
    else if circuitBreakerThreshold ≤ errorCount + 1 then none
    else some (errorCount + 1)

/-- How many cycles `runAutomationLoop` starts, given the outcome each
started cycle would produce. -/
def cyclesStarted (errorCount : Nat) : List CycleOutcome → Nat
  | [] => 0
  | o :: rest =>
    1 + (match loopStep errorCount o with
      | none => 0
      | some ec => cyclesStarted ec rest)

/-- The scraping phase's deduplication: keep only scraped leads whose
username is not among the freshly read store usernames. -/
def uniqueNewLeads (store : List Row) (newLeads : List ScrapedLead) : List ScrapedLead :=
  newLeads.filter (fun l => !((getAllUsernames store).contains l.username))

/-- The append step of the scraping phase: deduplicate against a fresh
`getAllUsernames` read, then append only the unique remainder. -/
def scrapingPhaseAppend (store : List Row) (newLeads : List ScrapedLead)
    (reads : List (List String)) : Except SheetsError Unit × List Row :=
  let uniq := uniqueNewLeads store newLeads
  if uniq.isEmpty then (Except.ok (), store)
  else appendLeads store uniq reads

/-- `executeActivity` in `src/main.js` destructures `activity.id`, but
activities built by `createDailyPlan` carry `leadId` and no `id` field,
so the destructured value is `undefined`. -/
def activityDotId (_ : Activity) : Option Nat := none

/-- The sheet effect of a successfully executed activity: a DM marks the
row found under `activity.id` as sent; likes, retweets and comments
write nothing to the sheet. -/
def executeActivityEffect (sheet : List Row) (a : Activity) (sentDate : String) : List Row :=
  match a.type with
  | ActivityType.dm => markDMSent sheet (activityDotId a) sentDate
  | _ => sheet

/-- The execution loop of the engagement phase: run the activities in
order; a successful activity increments `successCount` and applies its
sheet effect, a failed one logs the error against `activity.id` and the
loop continues.  The scheduler's counters are threaded through the
phase. `execOk i` says whether the `i`-th execution throws. -/
def engagementExecLoop (execOk : Nat → Bool) (sentDate : String) :
    List Activity → Nat → Nat → List Row → DailyCounters → Nat × List Row × DailyCounters
  | [], _, sc, sheet, cnt => (sc, sheet, cnt)
  | a :: rest, i, sc, sheet, cnt =>
    if execOk i then
      engagementExecLoop execOk sentDate rest (i + 1) (sc + 1)
        (executeActivityEffect sheet a sentDate) cnt
    else
      engagementExecLoop execOk sentDate rest (i + 1) sc
        (logError sheet (activityDotId a) "Engagement error" sentDate) cnt

/-- The observable result of one engagement phase. -/
structure EngagementResult where
  executed : List Activity
  successCount : Nat
  counters : DailyCounters
  sheet : List Row
deriving Repr, DecidableEq

/-- `engagementPhase` (production path, not demo mode): read the ready
leads, build the plan, truncate it to `activitiesPerCycle`, and execute
the truncated plan in order. -/
def engagementPhase (sheet : List Row) (cnt : DailyCounters) (o : PlanOracle)
    (execOk : Nat → Bool) (sentDate : String) : EngagementResult :=
  let leadsToEngage := getLeadsForEngagement sheet
  if leadsToEngage.isEmpty then
    { executed := [], successCount := 0, counters := cnt, sheet := sheet }
  else
    let dailyPlan := createDailyPlan configRateLimits cnt o leadsToEngage
    if dailyPlan.isEmpty then
      { executed := [], successCount := 0, counters := cnt, sheet := sheet }
    else
      let activitiesToExecute := dailyPlan.take activitiesPerCycle
      let out := engagementExecLoop execOk sentDate activitiesToExecute 0 0 sheet cnt
      { executed := activitiesToExecute, successCount := out.1,
        counters := out.2.2, sheet := out.2.1 }

/-- The number of store rows carrying a given username. -/
def countRows (u : String) (rows : List Row) : Nat :=
  rows.countP (fun r => r.username == u)

/-- A deterministic instance of the scheduler's random draws, used to
evaluate the code on concrete inputs: constant times, no retweet or
comment draws, fixed texts. -/
def constOracle : PlanOracle :=
  { dmTime := fun _ => 0, likeTime := fun _ => 0, retweetTime := fun _ => 0,
    commentTime := fun _ => 0, retweetChance := fun _ => false,
    commentChance := fun _ => false, messageFor := fun _ => "hello",
    commentText := fun _ => "Great insight!" }

/-- Sixteen ready leads sharing one handle, enough to exceed the hourly
cap of 15 while staying within the daily DM cap of 30. -/
def c4Leads : List Lead :=
  (List.range 16).map (fun i => { id := i + 2, username := "u" })

/-- A single ready sheet row (passed filtering, DM not sent). -/
def c3Row : Row :=
  { rowNumber := 2, username := "alice", bio := "nba fan",
    filterStatus := "PASS", dmStatus := "NOT_SENT" }

/-! ## Helper lemmas -/

/-- The verification loop succeeds exactly when some re-read attempt
shows every inserted username. -/
theorem verifyLoop_true_iff (leads : List ScrapedLead) (reads : List (List String)) :
    verifyLoop leads reads = true ↔
      ∃ r ∈ reads, ∀ l ∈ leads, r.contains l.username = true := by
  induction reads with
  | nil => simp [verifyLoop]
  | cons r rest ih =>
    have hcons : verifyLoop leads (r :: rest) =
        if (leads.all fun l => r.contains l.username) = true then true
        else verifyLoop leads rest := rfl
    cases h : leads.all (fun l => r.contains l.username) with
    | true =>
      constructor
      · intro _
        exact ⟨r, List.mem_cons_self r rest, fun l hl => List.all_eq_true.mp h l hl⟩
      · intro _
        rw [hcons, h]
        simp
    | false =>
      have hstep : verifyLoop leads (r :: rest) = verifyLoop leads rest := by
        rw [hcons, h]
        simp
      rw [hstep, ih]
      constructor
      · rintro ⟨s, hs, hall⟩
        exact ⟨s, List.mem_cons_of_mem r hs, hall⟩
      · rintro ⟨s, hs, hall⟩
        rcases List.mem_cons.mp hs with rfl | hs'
        · exfalso
          have hall' : leads.all (fun l => s.contains l.username) = true :=
            List.all_eq_true.mpr hall
          rw [hall'] at h
          exact absurd h (by decide)
        · exact ⟨s, hs', hall⟩

/-- Every row created by the insert loop carries the username of one of
the inserted leads. -/
theorem mem_appendRowsGo_username (base : Nat) :
    ∀ (ls : List ScrapedLead) (i : Nat) (r : Row), r ∈ appendRowsGo base i ls →
      ∃ l ∈ ls, r.username = l.username := by
  intro ls
  induction ls with
  | nil =>
    intro i r hr
    simp [appendRowsGo] at hr
  | cons l ls ih =>
    intro i r hr
    rcases List.mem_cons.mp hr with rfl | hr'
    · exact ⟨l, List.mem_cons_self l ls, rfl⟩
    · rcases ih (i + 1) r hr' with ⟨l', hl', he⟩
      exact ⟨l', List.mem_cons_of_mem l hl', he⟩

/-- Every inserted lead's username appears among the usernames of the
created rows. -/
theorem username_mem_appendRowsGo (base : Nat) :
    ∀ (ls : List ScrapedLead) (i : Nat) (l : ScrapedLead), l ∈ ls →
      ∃ r ∈ appendRowsGo base i ls, r.username = l.username := by
  intro ls
  induction ls with
  | nil =>
    intro i l hl
    simp at hl
  | cons a as ih =>
    intro i l hl
    rcases List.mem_cons.mp hl with rfl | hl'
    · exact ⟨leadToRow (base + i) l, List.mem_cons_self _ _, rfl⟩
    · rcases ih (i + 1) l hl' with ⟨r, hr, he⟩
      exact ⟨r, List.mem_cons_of_mem _ hr, he⟩

/-- Membership in the username read: a nonempty username carried by some
row. -/
theorem mem_getAllUsernames {u : String} {rows : List Row} :
    u ∈ getAllUsernames rows ↔ u ≠ "" ∧ ∃ r ∈ rows, r.username = u := by
  simp only [getAllUsernames, List.mem_filter, List.mem_map, bne_iff_ne]
  constructor
  · rintro ⟨⟨r, hr, he⟩, hne⟩
    exact ⟨hne, r, hr, he⟩
  · rintro ⟨hne, r, hr, he⟩
    exact ⟨⟨r, hr, he⟩, hne⟩

/-- The username read distributes over store concatenation. -/
theorem getAllUsernames_append (s t : List Row) :
    getAllUsernames (s ++ t) = getAllUsernames s ++ getAllUsernames t := by
  simp [getAllUsernames]

/-- The store rows after the scraping-phase append are always the old
rows followed by one inserted row per deduplicated lead, whether or not
verification succeeds. -/
theorem scrapingPhaseAppend_snd (store : List Row) (newLeads : List ScrapedLead)
    (reads : List (List String)) :
    (scrapingPhaseAppend store newLeads reads).2 =
      appendLeadsRows store (uniqueNewLeads store newLeads) := by
  unfold scrapingPhaseAppend appendLeads
  cases h : uniqueNewLeads store newLeads with
  | nil => simp [appendLeadsRows, appendRowsGo]
  | cons a as =>
    by_cases hv : verifyLoop (a :: as) reads = true
    · simp [hv]
    · simp [hv]

/-- After one scraping-phase append every scraped lead with a nonempty
username is visible in the fresh username read of the resulting store. -/
theorem username_visible_after_append (store : List Row) (newLeads : List ScrapedLead)
    (l : ScrapedLead) (hl : l ∈ newLeads) (hu : l.username ≠ "") :
    l.username ∈ getAllUsernames (appendLeadsRows store (uniqueNewLeads store newLeads)) := by
  rw [appendLeadsRows, getAllUsernames_append]
  by_cases hc : (getAllUsernames store).contains l.username = true
  · exact List.mem_append_left _ (by simpa using hc)
  · refine List.mem_append_right _ ?_
    have hmem : l ∈ uniqueNewLeads store newLeads := by
      simp only [uniqueNewLeads, List.mem_filter, Bool.not_eq_true']
      exact ⟨hl, by simpa using hc⟩
    rcases username_mem_appendRowsGo (store.length + 2) _ 0 l hmem with ⟨r, hr, he⟩
    exact mem_getAllUsernames.mpr ⟨hu, r, hr, he⟩

/-- Re-running the dedup against the store produced by a first append of
the same batch filters out every lead with a nonempty username. -/
theorem uniqueNewLeads_twice_empty_username (store : List Row) (newLeads : List ScrapedLead)
    (reads₁ : List (List String)) (l' : ScrapedLead)
    (h : l' ∈ uniqueNewLeads (scrapingPhaseAppend store newLeads reads₁).2 newLeads) :
    l'.username = "" := by
  rw [scrapingPhaseAppend_snd] at h
  rcases List.mem_filter.mp h with ⟨hmem, hcond⟩
  by_contra hne
  have hvis := username_visible_after_append store newLeads l' hmem hne
  have : (getAllUsernames
      (appendLeadsRows store (uniqueNewLeads store newLeads))).contains l'.username = true := by
    simpa using hvis
  rw [this] at hcond
  exact absurd hcond (by decide)

/-! ## C1 -/

/-- C1 counterexample: in `src/main.js` the kill-switch check treats
every value other than `RUN` as a stop signal.  A `PAUSE` reading makes
the cycle break out immediately (no phase runs, the loop exits) even
though later readings are `RUN`, and an unrecognized value such as
`MAYBE` also stops the loop instead of proceeding. -/
theorem c1_counterexample :
    checkKillSwitch "PAUSE" = true ∧
    runCyclePhases "PAUSE" "RUN" "RUN" = ([], true) ∧
    checkKillSwitch "MAYBE" = true ∧
    checkKillSwitch "RUN" = false := by decide

/-- C1 (amended): the kill-switch check maps `STOP`, `PAUSE` and every
other value whose uppercasing differs from `RUN` to an immediate break
out of the cycle loop (shutdown follows); only a value uppercasing to
`RUN` lets the next phase proceed. -/
theorem c1_amended (v k₂ k₃ : String) :
    (jsToUpperCase v ≠ "RUN" → runCyclePhases v k₂ k₃ = ([], true)) ∧
    (jsToUpperCase v = "RUN" → Phase.scraping ∈ (runCyclePhases v k₂ k₃).1) := by
  constructor
  · intro h
    simp [runCyclePhases, checkKillSwitch, bne_iff_ne, h]
  · intro h
    simp only [runCyclePhases, checkKillSwitch, h, bne_self_eq_false, if_false,
      Bool.false_eq_true]
    split
    · simp
    · split
      · simp
      · simp

/-- C1 amended, witnessed at `PAUSE`: the cycle stops with no phase
run. -/
theorem c1_amended_witness :
    jsToUpperCase "PAUSE" ≠ "RUN" ∧ runCyclePhases "PAUSE" "RUN" "RUN" = ([], true) :=
  ⟨by decide, (c1_amended "PAUSE" "RUN" "RUN").1 (by decide)⟩

/-! ## C2 -/

/-- C2: `appendLeads` verifies its writes with three re-check attempts
behind escalating delays (7s, 14s, 21s).  If some attempt shows every
inserted username the call succeeds; if every attempt misses at least
one inserted username the call fails with the write-not-verified
error. -/
theorem c2_appendLeads_write_verification (store : List Row) (leads : List ScrapedLead)
    (reads : List (List String)) (hne : leads ≠ [])
    (hlen : reads.length = sheetsMaxRetries) :
    ((List.range sheetsMaxRetries).map verificationDelay = [7000, 14000, 21000]) ∧
    ((∃ r ∈ reads, ∀ l ∈ leads, r.contains l.username = true) →
      (appendLeads store leads reads).1 = Except.ok ()) ∧
    ((∀ r ∈ reads, ∃ l ∈ leads, ¬ r.contains l.username = true) →
      (appendLeads store leads reads).1 = Except.error SheetsError.writeNotVerified) := by
  have hne' : leads.isEmpty = false := by
    cases leads with
    | nil => exact absurd rfl hne
    | cons a as => rfl
  refine ⟨by decide, ?_, ?_⟩
  · intro hvis
    have hv : verifyLoop leads reads = true := (verifyLoop_true_iff leads reads).mpr hvis
    simp [appendLeads, hne', hv]
  · intro hmiss
    have hv : verifyLoop leads reads = false := by
      rw [Bool.eq_false_iff]
      intro hcontra
      rcases (verifyLoop_true_iff leads reads).mp hcontra with ⟨r, hr, hall⟩
      rcases hmiss r hr with ⟨l, hl, hnot⟩
      exact hnot (hall l hl)
    simp [appendLeads, hne', hv]

/-- Batch `[X, Y]` whose usernames only become fully visible on the
third re-read: `appendLeads` succeeds. -/
theorem c2_witness :
    ([({ username := "X" } : ScrapedLead), { username := "Y" }] ≠ ([] : List ScrapedLead)) ∧
    ([["X"], ["X"], ["X", "Y"]] : List (List String)).length = sheetsMaxRetries ∧
    (appendLeads [] [({ username := "X" } : ScrapedLead), { username := "Y" }]
        [["X"], ["X"], ["X", "Y"]]).1 = Except.ok () :=
  ⟨by decide, by decide,
    (c2_appendLeads_write_verification [] _ _ (by decide) (by decide)).2.1 (by decide)⟩

/-! ## C5 -/

/-- C5: a scraped lead whose (nonempty) handle already sits on a store
row at the start of the scraping phase is never re-appended — it is
dropped by the dedup filter, and every row of the post-append store that
carries that handle was already in the store before the append. -/
theorem c5_dedup (store : List Row) (newLeads : List ScrapedLead)
    (reads : List (List String)) (l : ScrapedLead)
    (hmem : l ∈ newLeads) (hhandle : l.username ≠ "")
    (hpresent : ∃ r ∈ store, r.username = l.username) :
    l ∉ uniqueNewLeads store newLeads ∧
    ∀ r ∈ (scrapingPhaseAppend store newLeads reads).2,
      r.username = l.username → r ∈ store := by
  have hin : l.username ∈ getAllUsernames store :=
    mem_getAllUsernames.mpr ⟨hhandle, hpresent⟩
  have hcontains : (getAllUsernames store).contains l.username = true := by simpa using hin
  constructor
  · intro hl
    rcases List.mem_filter.mp hl with ⟨_, hcond⟩
    rw [hcontains] at hcond
    exact absurd hcond (by decide)
  · intro r hr he
    rw [scrapingPhaseAppend_snd, appendLeadsRows] at hr
    rcases List.mem_append.mp hr with hstore | hnew
    · exact hstore
    · exfalso
      rcases mem_appendRowsGo_username _ _ _ _ hnew with ⟨l', hl', he'⟩
      rcases List.mem_filter.mp hl' with ⟨_, hcond⟩
      rw [he] at he'
      rw [← he', hcontains] at hcond
      exact absurd hcond (by decide)

/-- A handle `X` already on the store is dropped by the dedup filter. -/
theorem c5_witness :
    (({ username := "X" } : ScrapedLead) ∈ [({ username := "X" } : ScrapedLead)]) ∧
    (({ username := "X" } : ScrapedLead).username ≠ "") ∧
    (∃ r ∈ [({ rowNumber := 2, username := "X" } : Row)],
      r.username = ({ username := "X" } : ScrapedLead).username) ∧
    ({ username := "X" } : ScrapedLead) ∉
      uniqueNewLeads [({ rowNumber := 2, username := "X" } : Row)]
        [({ username := "X" } : ScrapedLead)] :=
  ⟨by decide, by decide, by decide,
    (c5_dedup [{ rowNumber := 2, username := "X" }] [{ username := "X" }] [["X"]]
      { username := "X" } (by decide) (by decide) (by decide)).1⟩

/-! ## C6 -/

/-- The save loop stops at the first failing save: its error is the
first row whose save fails, and the persisted sheet contains exactly the
longest failure-free prefix of the updates. -/
theorem saveRows_eq (saveFails : Nat → Bool) (rs : List Row) (sheet : List Row) :
    saveRows saveFails sheet rs =
      ((rs.find? (fun r => saveFails r.rowNumber)).map
          (fun r => BatchError.saveFailed r.rowNumber),
        (rs.takeWhile (fun r => !saveFails r.rowNumber)).foldl saveRow sheet) := by
  induction rs generalizing sheet with
  | nil => simp [saveRows]
  | cons r rest ih =>
    by_cases h : saveFails r.rowNumber
    · simp [saveRows, h, List.find?_cons, List.takeWhile_cons]
    · have h' : saveFails r.rowNumber = false := by simpa using h
      simp [saveRows, h', List.find?_cons, List.takeWhile_cons, ih]

/-- C6 counterexample: with updates for rows 2, 3 and 4 where the save
of row 3 throws, `batchUpdateLeadStatuses` propagates that error and row
4 is never attempted — it still reads `PENDING` — although its own save
would have succeeded.  The batch neither attempts the remainder nor
returns a list of failed updates. -/
theorem c6_counterexample :
    (batchUpdateLeadStatuses
        [{ rowNumber := 2, username := "a", filterStatus := "PENDING" },
         { rowNumber := 3, username := "b", filterStatus := "PENDING" },
         { rowNumber := 4, username := "c", filterStatus := "PENDING" }]
        [⟨2, "PASS", ""⟩, ⟨3, "FAIL", "low"⟩, ⟨4, "PASS", ""⟩]
        (fun n => n == 3)).1 = some (BatchError.saveFailed 3) ∧
    ((batchUpdateLeadStatuses
        [{ rowNumber := 2, username := "a", filterStatus := "PENDING" },
         { rowNumber := 3, username := "b", filterStatus := "PENDING" },
         { rowNumber := 4, username := "c", filterStatus := "PENDING" }]
        [⟨2, "PASS", ""⟩, ⟨3, "FAIL", "low"⟩, ⟨4, "PASS", ""⟩]
        (fun n => n == 3)).2.find? (fun r => r.rowNumber == 4)).map
      (fun r => r.filterStatus) = some "PENDING" ∧
    ((4 : Nat) == 3) = false := by decide

/-- C6 (amended): when an individual row save fails, the batch update
stops at that row and propagates the single error: the failure-free
prefix of the batch is persisted, every later update is never attempted,
and no list of failures is returned. -/
theorem c6_amended (sheet : List Row) (updates : List StatusUpdate) (saveFails : Nat → Bool) :
    (batchUpdateLeadStatuses sheet updates saveFails).1 =
      ((rowsToUpdate sheet updates).find? (fun r => saveFails r.rowNumber)).map
        (fun r => BatchError.saveFailed r.rowNumber) ∧
    (batchUpdateLeadStatuses sheet updates saveFails).2 =
      ((rowsToUpdate sheet updates).takeWhile (fun r => !saveFails r.rowNumber)).foldl
        saveRow sheet := by
  unfold batchUpdateLeadStatuses
  by_cases h : updates.isEmpty
  · have : updates = [] := List.isEmpty_iff.mp h
    subst this
    simp [rowsToUpdate]
  · simp [h, saveRows_eq]

/-! ## C7 -/

/-- C7 counterexample: `appendLeads` performs no deduplication of its
own, so calling it twice with the same batch `[X]` (a retry) leaves two
store rows for the handle `X` — more than the single row the claim
allows. -/
theorem c7_counterexample :
    countRows "X"
      (appendLeads (appendLeads [] [({ username := "X" } : ScrapedLead)] [["X"]]).2
        [({ username := "X" } : ScrapedLead)] [["X"]]).2 = 2 ∧
    ¬(2 ≤ 1) := by decide

/-- C7 (amended): idempotence holds one level up, through the
orchestrator's append path: running the scraping-phase append (dedup
against a fresh username read, then `appendLeads` on the remainder)
twice with the same batch adds no further row for any nonempty handle —
the second run's row count for such a handle equals the first run's. -/
theorem c7_amended (store : List Row) (leads : List ScrapedLead)
    (reads₁ reads₂ : List (List String)) (u : String) (hu : u ≠ "") :
    countRows u
        (scrapingPhaseAppend (scrapingPhaseAppend store leads reads₁).2 leads reads₂).2 =
      countRows u (scrapingPhaseAppend store leads reads₁).2 := by
  rw [scrapingPhaseAppend_snd ((scrapingPhaseAppend store leads reads₁).2) leads reads₂,
    appendLeadsRows, countRows, List.countP_append]
  have hz : (appendRowsGo ((scrapingPhaseAppend store leads reads₁).2.length + 2) 0
      (uniqueNewLeads (scrapingPhaseAppend store leads reads₁).2 leads)).countP
        (fun r => r.username == u) = 0 := by
    rw [List.countP_eq_zero]
    intro r hr
    rcases mem_appendRowsGo_username _ _ _ _ hr with ⟨l', hl', he⟩
    have hempty : l'.username = "" :=
      uniqueNewLeads_twice_empty_username store leads reads₁ l' hl'
    rw [he, hempty]
    simp
    exact fun hcontra => hu hcontra.symm
  rw [hz, countRows]
  omega

/-- The second identical scrape-append run adds no row for the handle
`X`. -/
theorem c7_witness :
    (("X" : String) ≠ "") ∧
    countRows "X"
        (scrapingPhaseAppend
          (scrapingPhaseAppend [] [({ username := "X" } : ScrapedLead)] [["X"]]).2
          [({ username := "X" } : ScrapedLead)] [["X"]]).2 =
      countRows "X" (scrapingPhaseAppend [] [({ username := "X" } : ScrapedLead)] [["X"]]).2 :=
  ⟨by decide, c7_amended [] [{ username := "X" }] [["X"]] [["X"]] "X" (by decide)⟩

/-! ## C9 -/

/-- C9: with the configured threshold 5, five consecutive cycles that
each raise a non-permission error make the loop shut down right after
the fifth failed cycle — a sixth cycle never starts, whatever outcomes
would follow — and any cycle completing without exception resets the
consecutive-error counter to zero. -/
theorem c9_circuit_breaker :
    (∀ rest : List CycleOutcome,
      cyclesStarted 0 (List.replicate 5 (CycleOutcome.failure false) ++ rest) = 5) ∧
    (∀ errorCount : Nat, loopStep errorCount CycleOutcome.success = some 0) ∧
    circuitBreakerThreshold = 5 := by
  refine ⟨fun rest => ?_, fun _ => rfl, rfl⟩
  simp [List.replicate, cyclesStarted, loopStep, circuitBreakerThreshold]

/-! ## C10 -/

/-- C10: outside demo mode the engagement phase executes exactly the
first `activitiesPerCycle` (= 10) entries of the freshly built plan:
the executed list is the truncation of the plan the scheduler built from
the current sheet, so it never exceeds 10 activities, and the discarded
remainder is not retained anywhere (the next cycle rebuilds the plan
from the sheet alone). -/
theorem c10_truncation (sheet : List Row) (cnt : DailyCounters) (o : PlanOracle)
    (execOk : Nat → Bool) (sentDate : String) :
    (engagementPhase sheet cnt o execOk sentDate).executed =
      (createDailyPlan configRateLimits cnt o (getLeadsForEngagement sheet)).take
        activitiesPerCycle ∧
    (engagementPhase sheet cnt o execOk sentDate).executed.length ≤ activitiesPerCycle ∧
    activitiesPerCycle = 10 := by
  have hmain : (engagementPhase sheet cnt o execOk sentDate).executed =
      (createDailyPlan configRateLimits cnt o (getLeadsForEngagement sheet)).take
        activitiesPerCycle := by
    unfold engagementPhase
    by_cases h1 : (getLeadsForEngagement sheet).isEmpty
    · simp [h1, createDailyPlan, List.isEmpty_iff.mp h1]
    · by_cases h2 :
        (createDailyPlan configRateLimits cnt o (getLeadsForEngagement sheet)).isEmpty
      · simp [h1, h2, List.isEmpty_iff.mp h2]
      · simp [h1, h2]
  refine ⟨hmain, ?_, rfl⟩
  rw [hmain]
  exact List.length_take_le _ _

/-! ## Scheduler structure lemmas -/

/-- Membership in a conditional singleton. -/
theorem mem_ite_singleton {α : Type} {b : Bool} {x a : α}
    (h : a ∈ (if b then [x] else [])) : a = x := by
  cases b with
  | false => simp at h
  | true => simpa using h

/-- Every activity built by the DM loop is a DM of priority 1. -/
theorem mem_dmLoop (remDMs : Nat) (o : PlanOracle) :
    ∀ (ls : List Lead) (i c : Nat) (a : Activity), a ∈ dmLoop remDMs o ls i c →
      a.type = ActivityType.dm ∧ a.priority = 1 := by
  intro ls
  induction ls with
  | nil =>
    intro i c a ha
    simp [dmLoop] at ha
  | cons l ls ih =>
    intro i c a ha
    have hstep : dmLoop remDMs o (l :: ls) i c =
        if remDMs ≤ c then []
        else if l.username = "" then dmLoop remDMs o ls (i + 1) c
        else { type := ActivityType.dm, leadId := l.id, username := l.username,
               message := some (o.messageFor l), scheduledTime := o.dmTime i, priority := 1 }
          :: dmLoop remDMs o ls (i + 1) (c + 1) := rfl
    rw [hstep] at ha
    by_cases h1 : remDMs ≤ c
    · rw [if_pos h1] at ha
      simp at ha
    · rw [if_neg h1] at ha
      by_cases h2 : l.username = ""
      · rw [if_pos h2] at ha
        exact ih _ _ a ha
      · rw [if_neg h2] at ha
        rcases List.mem_cons.mp ha with rfl | ha'
        · exact ⟨rfl, rfl⟩
        · exact ih _ _ a ha'

/-- Every activity built by the like/retweet/comment loop is not a DM
and has priority 2 or 3. -/
theorem mem_engagementLoop (remLikes remRetweets remComments : Nat) (o : PlanOracle) (n : Nat) :
    ∀ (ls : List Lead) (i lc rc cc : Nat) (a : Activity),
      a ∈ engagementLoop remLikes remRetweets remComments o n ls i lc rc cc →
        a.type ≠ ActivityType.dm ∧ 2 ≤ a.priority ∧ a.priority ≤ 3 := by
  intro ls
  induction ls with
  | nil =>
    intro i lc rc cc a ha
    simp [engagementLoop] at ha
  | cons l ls ih =>
    intro i lc rc cc a ha
    have hstep : engagementLoop remLikes remRetweets remComments o n (l :: ls) i lc rc cc =
        if l.username = "" then
          engagementLoop remLikes remRetweets remComments o n ls (i + 1) lc rc cc
        else
          (if decide (lc < remLikes) && decide (lc < n * 2) then
            [{ type := ActivityType.like, leadId := l.id, username := l.username,
               postUrl := some ("https://twitter.com/" ++ l.username),
               scheduledTime := o.likeTime i, priority := 3 }] else [])
          ++ (if decide (rc < remRetweets) && o.retweetChance i then
            [{ type := ActivityType.retweet, leadId := l.id, username := l.username,
               postUrl := some ("https://twitter.com/" ++ l.username),
               scheduledTime := o.retweetTime i, priority := 2 }] else [])
          ++ (if decide (cc < remComments) && o.commentChance i then
            [{ type := ActivityType.comment, leadId := l.id, username := l.username,
               postUrl := some ("https://twitter.com/" ++ l.username),
               comment := some (o.commentText i),
               scheduledTime := o.commentTime i, priority := 2 }] else [])
          ++ engagementLoop remLikes remRetweets remComments o n ls (i + 1)
              (lc + (if decide (lc < remLikes) && decide (lc < n * 2) then 1 else 0))
              (rc + (if decide (rc < remRetweets) && o.retweetChance i then 1 else 0))
              (cc + (if decide (cc < remComments) && o.commentChance i then 1 else 0)) := rfl
    rw [hstep] at ha
    by_cases h2 : l.username = ""
    · rw [if_pos h2] at ha
      exact ih _ _ _ _ a ha
    · rw [if_neg h2] at ha
      rcases List.mem_append.mp ha with h | h
      · rcases List.mem_append.mp h with h | h
        · rcases List.mem_append.mp h with h | h
          · rw [mem_ite_singleton h]
            exact ⟨fun hx => ActivityType.noConfusion hx, Nat.le_succ 2, Nat.le_refl 3⟩
          · rw [mem_ite_singleton h]
            exact ⟨fun hx => ActivityType.noConfusion hx, Nat.le_refl 2, Nat.le_succ 2⟩
        · rw [mem_ite_singleton h]
          exact ⟨fun hx => ActivityType.noConfusion hx, Nat.le_refl 2, Nat.le_succ 2⟩
      · exact ih _ _ _ _ a h

/-- The DM loop produces exactly the smaller of the remaining DM quota
and the number of leads carrying a username. -/
theorem dmLoop_length (remDMs : Nat) (o : PlanOracle) :
    ∀ (ls : List Lead) (i c : Nat),
      (dmLoop remDMs o ls i c).length =
        min (remDMs - c) (ls.countP (fun l => l.username != "")) := by
  intro ls
  induction ls with
  | nil =>
    intro i c
    simp [dmLoop]
  | cons l ls ih =>
    intro i c
    have hstep : dmLoop remDMs o (l :: ls) i c =
        if remDMs ≤ c then []
        else if l.username = "" then dmLoop remDMs o ls (i + 1) c
        else { type := ActivityType.dm, leadId := l.id, username := l.username,
               message := some (o.messageFor l), scheduledTime := o.dmTime i, priority := 1 }
          :: dmLoop remDMs o ls (i + 1) (c + 1) := rfl
    rw [hstep]
    by_cases h1 : remDMs ≤ c
    · rw [if_pos h1]
      have hz : remDMs - c = 0 := by omega
      simp [hz]
    · rw [if_neg h1]
      by_cases h2 : l.username = ""
      · rw [if_pos h2, ih]
        have hfalse : (l.username != "") = false := by simp [h2]
        rw [List.countP_cons, hfalse]
        simp
      · rw [if_neg h2]
        rw [List.length_cons, ih]
        have htrue : (l.username != "") = true := by simp [h2]
        rw [List.countP_cons, htrue]
        simp only [if_true, eq_self_iff_true]
        omega

/-- With remaining DM quota 2 and three leads that all carry usernames,
the DM loop assigns DMs to exactly the first two leads, in order. -/
theorem dmLoop_three (o : PlanOracle) (A B C : Lead)
    (hA : A.username ≠ "") (hB : B.username ≠ "") :
    dmLoop 2 o [A, B, C] 0 0 =
      [{ type := ActivityType.dm, leadId := A.id, username := A.username,
         message := some (o.messageFor A), scheduledTime := o.dmTime 0, priority := 1 },
       { type := ActivityType.dm, leadId := B.id, username := B.username,
         message := some (o.messageFor B), scheduledTime := o.dmTime 1, priority := 1 }] := by
  simp [dmLoop, hA, hB]

/-! ## C3 -/

/-- C3: on a sheet with one ready lead whose planned activities (one DM,
one like) both execute successfully, the engagement phase confirms the
actions (success count 2, one of them the DM) yet leaves the scheduler's
daily counters untouched: `src/main.js` never calls `incrementCounter`,
although that call is exactly what a successful action is supposed to
trigger (the last conjunct shows recording a DM would have changed the
counters). -/
theorem c3_no_quota_recording :
    ((engagementPhase [c3Row] {} constOracle (fun _ => true) "2025-10-11").executed.countP
        (fun a => a.type == ActivityType.dm)) = 1 ∧
    (engagementPhase [c3Row] {} constOracle (fun _ => true) "2025-10-11").successCount = 2 ∧
    (engagementPhase [c3Row] {} constOracle (fun _ => true) "2025-10-11").counters
        = ({} : DailyCounters) ∧
    incrementCounter {} ActivityType.dm ≠ ({} : DailyCounters) := by decide

/-! ## C4 -/

/-- C4 counterexample: with fresh counters and sixteen ready leads, the
scheduler plans sixteen DM activities — more than the configured
`actionsPerHour` cap of 15 — because planning consults only the per-day
windows, never the hourly one; the claimed minimum across windows
(`min 30 15 = 15`) does not bound the plan. -/
theorem c4_counterexample :
    configRateLimits.actionsPerHour = 15 ∧
    ((createDailyPlan configRateLimits {} constOracle c4Leads).countP
        (fun a => a.type == ActivityType.dm)) = 16 ∧
    ¬(((createDailyPlan configRateLimits {} constOracle c4Leads).countP
        (fun a => a.type == ActivityType.dm)) ≤ configRateLimits.actionsPerHour) := by decide

/-- C4 (amended): planning uses only the per-day windows — the number of
planned DM activities is `min (dmPerDay − dm counter) (#leads with a
username)`, and the configured `actionsPerHour` value is never consulted:
any two values of it yield the identical plan. -/
theorem c4_amended :
    (∀ (rl : RateLimits) (cnt : DailyCounters) (o : PlanOracle) (leads : List Lead)
        (m : Option Nat) (h₁ h₂ : Nat),
      createDailyPlan { rl with actionsPerHour := h₁ } cnt o leads m =
        createDailyPlan { rl with actionsPerHour := h₂ } cnt o leads m) ∧
    (∀ (rl : RateLimits) (cnt : DailyCounters) (o : PlanOracle) (leads : List Lead),
      ((createDailyPlan rl cnt o leads).countP (fun a => a.type == ActivityType.dm)) =
        min (remainingDMs rl cnt) (leads.countP (fun l => l.username != ""))) := by
  constructor
  · intro rl cnt o leads m h₁ h₂
    rfl
  · intro rl cnt o leads
    cases hleads : leads with
    | nil => simp [createDailyPlan]
    | cons l ls =>
      rw [← hleads]
      have hne : leads.isEmpty = false := by rw [hleads]; rfl
      unfold createDailyPlan
      rw [hne]
      simp only [Bool.false_eq_true, if_false]
      cases hm : (none : Option Nat) with
      | none =>
        rw [List.Perm.countP_eq _ (List.perm_insertionSort planLERel _), List.countP_append]
        have hz : (engagementLoop (remainingLikes rl cnt) (remainingRetweets rl cnt)
            (remainingComments rl cnt) o leads.length leads 0 0 0 0).countP
              (fun a => a.type == ActivityType.dm) = 0 := by
          rw [List.countP_eq_zero]
          intro a ha
          have := (mem_engagementLoop _ _ _ o _ _ _ _ _ _ a ha).1
          simp [this]
        have hall : (dmLoop (remainingDMs rl cnt) o leads 0 0).countP
            (fun a => a.type == ActivityType.dm) =
              (dmLoop (remainingDMs rl cnt) o leads 0 0).length := by
          rw [List.countP_eq_length]
          intro a ha
          have := (mem_dmLoop _ o _ _ _ a ha).1
          simp [this]
        rw [hz, hall, dmLoop_length]
        omega
      | some k => simp at hm

/-! ## C8 -/

/-- C8: with remaining DM quota 2 and three ready candidates `A`, `B`,
`C` that each carry a handle, the plan contains exactly two DM
activities, for the first two candidates in ready order; every DM
activity outranks (has strictly smaller numeric priority than) every
activity of any other kind; and the final plan is sorted by priority
rank ascending with ties broken by scheduled time ascending — all of
this for every outcome of the scheduler's random draws. -/
theorem c8_dm_scenario (rl : RateLimits) (cnt : DailyCounters) (o : PlanOracle)
    (A B C : Lead) (hA : A.username ≠ "") (hB : B.username ≠ "") (hC : C.username ≠ "")
    (hq : remainingDMs rl cnt = 2) :
    (((createDailyPlan rl cnt o [A, B, C]).filter
        (fun a => a.type == ActivityType.dm)).map (fun a => a.username)).Perm
      [A.username, B.username] ∧
    (∀ a ∈ createDailyPlan rl cnt o [A, B, C], ∀ b ∈ createDailyPlan rl cnt o [A, B, C],
      a.type = ActivityType.dm → b.type ≠ ActivityType.dm → a.priority < b.priority) ∧
    List.Sorted planLERel (createDailyPlan rl cnt o [A, B, C]) := by
  have hplan : createDailyPlan rl cnt o [A, B, C] =
      List.insertionSort planLERel
        (dmLoop (remainingDMs rl cnt) o [A, B, C] 0 0 ++
          engagementLoop (remainingLikes rl cnt) (remainingRetweets rl cnt)
            (remainingComments rl cnt) o 3 [A, B, C] 0 0 0 0) := rfl
  have hperm : (createDailyPlan rl cnt o [A, B, C]).Perm
      (dmLoop (remainingDMs rl cnt) o [A, B, C] 0 0 ++
        engagementLoop (remainingLikes rl cnt) (remainingRetweets rl cnt)
          (remainingComments rl cnt) o 3 [A, B, C] 0 0 0 0) := by
    rw [hplan]
    exact List.perm_insertionSort planLERel _
  refine ⟨?_, ?_, ?_⟩
  · have hfilter : ((dmLoop (remainingDMs rl cnt) o [A, B, C] 0 0 ++
        engagementLoop (remainingLikes rl cnt) (remainingRetweets rl cnt)
          (remainingComments rl cnt) o 3 [A, B, C] 0 0 0 0).filter
        (fun a => a.type == ActivityType.dm)) =
          dmLoop (remainingDMs rl cnt) o [A, B, C] 0 0 := by
      rw [List.filter_append]
      have h1 : (dmLoop (remainingDMs rl cnt) o [A, B, C] 0 0).filter
          (fun a => a.type == ActivityType.dm) =
            dmLoop (remainingDMs rl cnt) o [A, B, C] 0 0 := by
        rw [List.filter_eq_self]
        intro a ha
        have := (mem_dmLoop _ o _ _ _ a ha).1
        simp [this]
      have h2 : (engagementLoop (remainingLikes rl cnt) (remainingRetweets rl cnt)
          (remainingComments rl cnt) o 3 [A, B, C] 0 0 0 0).filter
            (fun a => a.type == ActivityType.dm) = [] := by
        rw [List.filter_eq_nil_iff]
        intro a ha
        have := (mem_engagementLoop _ _ _ o _ _ _ _ _ _ a ha).1
        simp [this]
      rw [h1, h2, List.append_nil]
    have hmap := (hperm.filter (fun a => a.type == ActivityType.dm)).map
      (fun a => a.username)
    rw [hfilter, hq, dmLoop_three o A B C hA hB] at hmap
    simpa using hmap
  · intro a ha b hb hadm hbnotdm
    have ha' := hperm.mem_iff.mp ha
    have hb' := hperm.mem_iff.mp hb
    rcases List.mem_append.mp ha' with haDm | haEng
    · have hpa := (mem_dmLoop _ o _ _ _ a haDm).2
      rcases List.mem_append.mp hb' with hbDm | hbEng
      · exact absurd (mem_dmLoop _ o _ _ _ b hbDm).1 hbnotdm
      · have hpb := (mem_engagementLoop _ _ _ o _ _ _ _ _ _ b hbEng).2.1
        omega
    · exact absurd hadm (mem_engagementLoop _ _ _ o _ _ _ _ _ _ a haEng).1
  · rw [hplan]
    exact List.sorted_insertionSort planLERel _

/-- The C8 scenario witnessed on concrete candidates `A`, `B`, `C` with
28 of the 30 daily DMs already counted (remaining quota 2): the plan's
DM activities target exactly `A` and `B`. -/
theorem c8_witness :
    (("A" : String) ≠ "") ∧ (("B" : String) ≠ "") ∧ (("C" : String) ≠ "") ∧
    remainingDMs configRateLimits { dm := 28 } = 2 ∧
    (((createDailyPlan configRateLimits { dm := 28 } constOracle
        [{ id := 2, username := "A" }, { id := 3, username := "B" },
         { id := 4, username := "C" }]).filter
        (fun a => a.type == ActivityType.dm)).map (fun a => a.username)).Perm ["A", "B"] :=
  ⟨by decide, by decide, by decide, by decide,
    (c8_dm_scenario configRateLimits { dm := 28 } constOracle
      { id := 2, username := "A" } { id := 3, username := "B" } { id := 4, username := "C" }
      (by decide) (by decide) (by decide) (by decide)).1⟩

end AutoX
